import Mathlib

/-!
Verification of the phenofetch catalog crawler and batch fetch engine.

The Python source under src/phenofetch is shallowly embedded:
pure functions become Lean functions; the HTML page is represented by the
structured values BeautifulSoup extracts from it (the parser logic after the
soup lookups is embedded verbatim); network and filesystem effects are passed
explicitly (a response function, a list of existing paths, counters for
requests and writes); Python `None` becomes `Option.none`; CPython exceptions
that the source catches are modelled as the outcome values the handlers build.
Dates are modelled as proleptic-Gregorian day ordinals: `datetime` values are
totally ordered and `timedelta(days=1)` is the ordinal successor, which is all
`get_date_range` uses.
-/

namespace Phenofetch

/-- Python `\d` digit test used by the source regexes. -/
def pyIsDigit (c : Char) : Bool := c.isDigit

/-- Python `\s` whitespace class (space, tab, newline, CR, vertical tab, form feed). -/
def pyIsSpace (c : Char) : Bool :=
  c = ' ' || c = '\t' || c = '\n' || c = '\r' || c = '\x0b' || c = '\x0c'

/-- Python truthiness of a string: nonempty. -/
def pyTruthyS (s : String) : Bool := !(s == "")

/-- `str.strip()`: drop leading and trailing whitespace. -/
def pyStrip (s : String) : String :=
  String.mk (((s.toList.dropWhile pyIsSpace).reverse.dropWhile pyIsSpace).reverse)

/-- List-level check that `pat` occurs at the head of `l`. -/
def startsWithList : List Char → List Char → Bool
  | [], _ => true
  | _ :: _, [] => false
  | a :: as, b :: bs => a = b && startsWithList as bs

/-- List-level substring occurrence check. -/
def containsList (pat : List Char) : List Char → Bool
  | [] => startsWithList pat []
  | c :: cs => startsWithList pat (c :: cs) || containsList pat cs

/-- Python `pat in s` substring test. -/
def strContains (s pat : String) : Bool := containsList pat.toList s.toList

/-- Python `s.endswith(pat)`. -/
def strEndsWith (s pat : String) : Bool :=
  startsWithList pat.toList.reverse s.toList.reverse

/-- Digit run to number, as `int` does on an all-digit string. -/
def digitsToNat (cs : List Char) : Nat :=
  cs.foldl (fun n c => n * 10 + (c.toNat - 48)) 0

/-- Python `int(s)` on a (possibly signed) decimal string, `none` when `int`
would raise `ValueError`. -/
def pyInt? (s : String) : Option Int :=
  match (pyStrip s).toList with
  | [] => none
  | '-' :: cs => if cs ≠ [] ∧ cs.all pyIsDigit then some (-(digitsToNat cs : Int)) else none
  | c :: cs => if (c :: cs).all pyIsDigit then some ((digitsToNat (c :: cs) : Int)) else none

/-- The guarded conversion pattern `int(x) if x and x.strip() else None` used for
the year/month/day/day-of-year fields. A nonnumeric string would raise in
CPython; the parser has no handler for that, and it is merged into `none` here. -/
def pyIntField (s : String) : Option Int :=
  if pyTruthyS s && pyTruthyS (pyStrip s) then pyInt? s else none

/-- `s.split(":")[1]` for the label-anchored searches: the text between the
first and second colon (the source only applies this to strings that matched a
regex containing a colon, so index 1 exists there). -/
def pyColonField1 (s : String) : String :=
  String.mk (((s.toList.dropWhile (fun c => c ≠ ':')).drop 1).takeWhile (fun c => c ≠ ':'))

/-! ### The abstract soup

`BeautifulSoup` is an external collaborator: the embedding starts from the
values the source reads off the parsed page.  One `ImgDiv` is one
`div.col-6.col-sm-4.col-md-3.col-lg-2.px-1` container; `SiteInfo` is the
`div#browse_siteinfo` block. -/

/-- What the source reads from one image container:
`img_div.find("a")["href"]`, `img_div.find("img")["src"]`, the stripped text of
`span.imglabel > small` when both exist, and the href of an `<a>` matching
`\.meta$`. -/
structure ImgDiv where
  aHref : Option String
  imgSrc : Option String
  labelSmall : Option String
  metaHref : Option String
deriving DecidableEq

/-- What the source reads from the site-info block: the texts of its `<a>`
elements (in document order), `site_info.get_text()`, and the text nodes
matching `Day-of-Year:` and `Number of Images:` when present. -/
structure SiteInfo where
  linkTexts : List String
  blockText : String
  doyText : Option String
  imgCountText : Option String
deriving DecidableEq

/-- One parsed page: the site-info block (absent on structurally different
pages) and the list of image containers in page order. -/
structure Soup where
  siteInfo : Option SiteInfo
  imageDivs : List ImgDiv
deriving DecidableEq

/-- The `date` sub-dictionary of the parser output. -/
structure DateInfo where
  year : Option Int
  month : Option Int
  day : Option Int
  day_of_year : Option Int
deriving DecidableEq

/-- One entry of the `images` list of the parser output. -/
structure ImageInfo where
  time : Option String
  timezone : Option String
  image_url : Option String
  thumbnail_url : Option String
  metadata_url : Option String
deriving DecidableEq

/-- The parser output dictionary. -/
structure PhenoData where
  site_name : String
  date : DateInfo
  total_images : Int
  images : List ImageInfo
deriving DecidableEq

/-! ### Regex helpers of the parser -/

/-- Anchored tail of `\/(\d+)\s+<`: after a `/`, a nonempty digit run, then
nonempty whitespace, then a literal `<`. -/
def dayPrimaryAt (cs : List Char) : Option String :=
  let ds := cs.takeWhile pyIsDigit
  let r := cs.dropWhile pyIsDigit
  let ws := r.takeWhile pyIsSpace
  let r2 := r.dropWhile pyIsSpace
  if ds ≠ [] ∧ ws ≠ [] ∧ r2.head? = some '<' then some (String.mk ds) else none

/-- Leftmost match of `re.search(r"\/(\d+)\s+<", ...)`, returning group 1. -/
def dayPrimary : List Char → Option String
  | [] => none
  | c :: cs =>
    if c = '/' then
      match dayPrimaryAt cs with
      | some d => some d
      | none => dayPrimary cs
    else dayPrimary cs

/-- Anchored tail of `\/(\d+)\s*$`: after a `/`, a nonempty digit run followed
only by whitespace up to the end. -/
def dayFallbackAt (cs : List Char) : Option String :=
  let ds := cs.takeWhile pyIsDigit
  let r := cs.dropWhile pyIsDigit
  if ds ≠ [] ∧ r.all pyIsSpace then some (String.mk ds) else none

/-- Leftmost match of `re.search(r"\/(\d+)\s*$", ...)`, returning group 1. -/
def dayFallback : List Char → Option String
  | [] => none
  | c :: cs =>
    if c = '/' then
      match dayFallbackAt cs with
      | some d => some d
      | none => dayFallback cs
    else dayFallback cs

/-- The two-step day extraction: primary pattern, then the end-anchored
fallback. -/
def dayMatch (text : String) : Option String :=
  match dayPrimary text.toList with
  | some d => some d
  | none => dayFallback text.toList

/-- Backtracking tail of `\s+(.+)`: the regex engine takes the maximal
whitespace run and gives characters back until `.+` can match at least one
non-newline character. `k` counts the whitespace characters still kept. -/
def tzFrom (r : List Char) : Nat → Option String
  | 0 => none
  | k + 1 =>
    match r.drop (k + 1) with
    | c :: rest => if c ≠ '\n' then some (String.mk (c :: rest.takeWhile (fun x => x ≠ '\n'))) else tzFrom r k
    | [] => tzFrom r k

/-- Anchored match of `(\d+:\d+:\d+)\s+(.+)` at the head of `cs`. -/
def matchTimeAt (cs : List Char) : Option (String × String) :=
  let d1 := cs.takeWhile pyIsDigit
  let r1 := cs.dropWhile pyIsDigit
  if d1 = [] then none else
  match r1 with
  | ':' :: r1t =>
    let d2 := r1t.takeWhile pyIsDigit
    let r2 := r1t.dropWhile pyIsDigit
    if d2 = [] then none else
    match r2 with
    | ':' :: r2t =>
      let d3 := r2t.takeWhile pyIsDigit
      let r3 := r2t.dropWhile pyIsDigit
      if d3 = [] then none else
      match tzFrom r3 ((r3.takeWhile pyIsSpace).length) with
      | some tz => some (String.mk (d1 ++ ':' :: d2 ++ ':' :: d3), tz)
      | none => none
    | _ => none
  | _ => none

/-- Leftmost match of `re.search(r"(\d+:\d+:\d+)\s+(.+)", ...)`. -/
def searchTime : List Char → Option (String × String)
  | [] => none
  | c :: cs =>
    match matchTimeAt (c :: cs) with
    | some r => some r
    | none => searchTime cs

/-- The time/timezone extraction from the `imglabel` text, shared verbatim by
both parser copies. -/
def extractTime (labelSmall : Option String) : Option String × Option String :=
  match labelSmall with
  | none => (none, none)
  | some raw =>
    let time_str := pyStrip raw
    match searchTime time_str.toList with
    | some (t, tz) => (some t, some tz)
    | none => (some time_str, none)

/-- Header extraction (site name, date fields, declared image count), textually
identical in both copies of `convert_phenocam_daily_to_json`. A nonnumeric
declared image count would raise in CPython; it is merged into the `0` default
here. -/
def parseHeader (si : SiteInfo) : String × DateInfo × Int :=
  let site_name := match si.linkTexts.get? 0 with
    | some t => pyStrip t
    | none => "Unknown"
  let year := match si.linkTexts.get? 1 with
    | some t => pyStrip t
    | none => ""
  let month := match si.linkTexts.get? 2 with
    | some t => pyStrip t
    | none => ""
  let day : Option String := (dayMatch si.blockText).map pyStrip
  let doy : Option String := si.doyText.map (fun s => pyStrip (pyColonField1 s))
  let img_count : String := match si.imgCountText with
    | some s => pyStrip (pyColonField1 s)
    | none => "0"
  let date : DateInfo :=
    { year := pyIntField year
      month := pyIntField month
      day := match day with
        | some d => pyIntField d
        | none => none
      day_of_year := match doy with
        | some d => pyIntField d
        | none => none }
  let total_images : Int :=
    if pyTruthyS img_count && pyTruthyS (pyStrip img_count) then (pyInt? img_count).getD 0 else 0
  (site_name, date, total_images)

/-- The fixed URL host used by both parsers. -/
def baseUrl : String := "https://phenocam.nau.edu/"

/-- Python `f"...{x}"` interpolation of a possibly-`None` value: `None` renders
as the four characters `None`. -/
def pyFStr : Option String → String
  | none => "None"
  | some s => s

end Phenofetch

namespace Phenofetch.DailyLinks

open Phenofetch

/-- Image-entry construction of `daily_links.convert_phenocam_daily_to_json`
(lines 158-165): every URL field is built unconditionally with an f-string, so
an absent link interpolates Python `None` into the URL text. -/
def mkImageInfo (d : ImgDiv) : ImageInfo :=
  let tt := extractTime d.labelSmall
  { time := tt.1
    timezone := tt.2
    image_url := some (baseUrl ++ pyFStr d.aHref)
    thumbnail_url := some (baseUrl ++ pyFStr d.imgSrc)
    metadata_url := some (baseUrl ++ pyFStr d.metaHref) }

/-- `daily_links.convert_phenocam_daily_to_json`: `None` without the site-info
block, otherwise the header fields plus one `ImageInfo` per container. -/
def convert_phenocam_daily_to_json (soup : Soup) : Option PhenoData :=
  match soup.siteInfo with
  | none => none
  | some si =>
    let h := parseHeader si
    some { site_name := h.1, date := h.2.1, total_images := h.2.2
           images := soup.imageDivs.map mkImageInfo }

end Phenofetch.DailyLinks

namespace Phenofetch.SizeEstimate

open Phenofetch

/-- Image-entry construction of `size_estimate.convert_phenocam_daily_to_json`
(lines 192-202): each URL field is guarded by the link's truthiness, so an
absent (or empty) link yields `None`. -/
def mkImageInfo (d : ImgDiv) : ImageInfo :=
  let tt := extractTime d.labelSmall
  { time := tt.1
    timezone := tt.2
    image_url := match d.aHref with
      | some s => if pyTruthyS s then some (baseUrl ++ s) else none
      | none => none
    thumbnail_url := match d.imgSrc with
      | some s => if pyTruthyS s then some (baseUrl ++ s) else none
      | none => none
    metadata_url := match d.metaHref with
      | some s => if pyTruthyS s then some (baseUrl ++ s) else none
      | none => none }

/-- `size_estimate.convert_phenocam_daily_to_json`. -/
def convert_phenocam_daily_to_json (soup : Soup) : Option PhenoData :=
  match soup.siteInfo with
  | none => none
  | some si =>
    let h := parseHeader si
    some { site_name := h.1, date := h.2.1, total_images := h.2.2
           images := soup.imageDivs.map mkImageInfo }

end Phenofetch.SizeEstimate

namespace Phenofetch

/-- `FileRef.kind`: the three URL classes. -/
inductive FileKind where
  | thumbnail
  | full_res
  | meta
deriving DecidableEq

/-- The URL-shape classification chain shared (with identical conditions and
order) by `daily_links.download_file` and `size_estimate.get_file_size`:
`"/thumbnails/" in url`, then `"/archive/" in url and url.endswith(".jpg")`,
then `"/archive/" in url and url.endswith(".meta")`; `none` when no branch
matches. -/
def classifyKind (url : String) : Option FileKind :=
  if strContains url "/thumbnails/" then some FileKind.thumbnail
  else if strContains url "/archive/" && strEndsWith url ".jpg" then some FileKind.full_res
  else if strContains url "/archive/" && strEndsWith url ".meta" then some FileKind.meta
  else none

/-- Target subdirectory assigned to each kind by `download_file`. -/
def subdirName : FileKind → String
  | FileKind.thumbnail => "thumbnails"
  | FileKind.full_res => "full_res"
  | FileKind.meta => "meta"

/-- `file_type` string assigned to each classification by `get_file_size`
(`"unknown"` before any branch matches). -/
def fileTypeName : Option FileKind → String
  | some FileKind.thumbnail => "thumbnail"
  | some FileKind.full_res => "full_res"
  | some FileKind.meta => "meta"
  | none => "unknown"

/-- `os.path.basename`: the part of the URL after its last `/`. -/
def basename (url : String) : String :=
  String.mk ((url.toList.reverse.takeWhile (fun c => c ≠ '/')).reverse)

/-- `os.path.join` with the portable separator. -/
def pyJoin (a b : String) : String := a ++ "/" ++ b

end Phenofetch

namespace Phenofetch.DailyLinks

open Phenofetch

/-- Result of one `download_file` call, with the effect trace made explicit:
the outcome dictionary fields, the set of files existing afterwards, and the
number of HTTP GETs and file writes performed. -/
structure DownloadResult where
  success : Bool
  status : Option String
  error : Option String
  fs : List String
  gets : Nat
  writes : Nat
deriving DecidableEq

/-- `daily_links.download_file`. `net url` is the HTTP status a GET of `url`
would return; `fs` is the set of paths existing on disk. When no
classification branch matches, `subdir` is never assigned, so computing
`filepath` raises `NameError`, which the surrounding `except` turns into a
failure outcome before any request is made. -/
def download_file (net : String → Nat) (fs : List String) (output_dir url : String) :
    DownloadResult :=
  match classifyKind url with
  | none =>
    { success := false, status := none, error := some "NameError", fs := fs
      gets := 0, writes := 0 }
  | some k =>
    let subdir := pyJoin output_dir (subdirName k)
    let filepath := pyJoin subdir (basename url)
    if filepath ∈ fs then
      { success := true, status := some "already exists", error := none, fs := fs
        gets := 0, writes := 0 }
    else if net url = 200 then
      { success := true, status := some "downloaded", error := none
        fs := filepath :: fs, gets := 1, writes := 1 }
    else
      { success := false, status := none, error := some ("HTTP " ++ toString (net url))
        fs := fs, gets := 1, writes := 0 }

end Phenofetch.DailyLinks

namespace Phenofetch.SizeEstimate

open Phenofetch

/-- One `get_file_size` outcome dictionary. `size` is the declared content
length, `none` when the header was absent or the probe failed. -/
structure SizeOutcome where
  success : Bool
  size : Option Nat
  file_type : String
  error : Option String
deriving DecidableEq

/-- `size_estimate.get_file_size`. `net url` is the pair (HTTP status,
Content-Length header) a redirect-following HEAD of `url` would produce; the
second component of the result counts the HEAD requests issued. Metadata URLs
short-circuit to a synthetic zero-size success with no request. -/
def get_file_size (net : String → Nat × Option Nat) (url : String) :
    SizeOutcome × Nat :=
  let file_type := fileTypeName (classifyKind url)
  if classifyKind url = some FileKind.meta then
    ({ success := true, size := some 0, file_type := file_type, error := none }, 0)
  else
    let resp := net url
    if resp.1 = 200 then
      ({ success := true, size := resp.2, file_type := file_type, error := none }, 1)
    else
      ({ success := false, size := none, file_type := file_type
         error := some ("HTTP " ++ toString resp.1) }, 1)

/-- The statistics record of `async_estimate_sizes` (formatted-size strings,
which are derived presentation data, are omitted). -/
structure SizeStats where
  total_count : Nat
  total_size : Nat
  full_res_count : Nat
  full_res_size : Nat
  thumbnail_count : Nat
  thumbnail_size : Nat
  meta_count : Nat
  meta_size : Nat
  successful : Nat
  failed : Nat
  errors : List SizeOutcome
  files : List SizeOutcome
deriving DecidableEq

/-- The `stats` dictionary as initialised at the top of
`async_estimate_sizes` for `n` URLs. -/
def initStats (n : Nat) : SizeStats :=
  { total_count := n, total_size := 0, full_res_count := 0, full_res_size := 0
    thumbnail_count := 0, thumbnail_size := 0, meta_count := 0, meta_size := 0
    successful := 0, failed := 0, errors := [], files := [] }

/-- The per-outcome statistics update of `async_estimate_sizes` (lines
548-565): append to `files`; if the outcome has `success` and a non-null
`size`, count it successful and accumulate the size into the total and the
matching per-kind bucket; otherwise count it failed and append it to
`errors`. -/
def updateStats (stats : SizeStats) (result : SizeOutcome) : SizeStats :=
  let stats := { stats with files := stats.files ++ [result] }
  if result.success && result.size.isSome then
    let sz := result.size.getD 0
    let stats := { stats with successful := stats.successful + 1
                              total_size := stats.total_size + sz }
    if result.file_type = "full_res" then
      { stats with full_res_count := stats.full_res_count + 1
                   full_res_size := stats.full_res_size + sz }
    else if result.file_type = "thumbnail" then
      { stats with thumbnail_count := stats.thumbnail_count + 1
                   thumbnail_size := stats.thumbnail_size + sz }
    else if result.file_type = "meta" then
      { stats with meta_count := stats.meta_count + 1
                   meta_size := stats.meta_size + sz }
    else stats
  else
    { stats with failed := stats.failed + 1, errors := stats.errors ++ [result] }

/-- The whole aggregation pass: outcomes are consumed in order, batch after
batch, starting from the initial record. -/
def foldStats (n : Nat) (results : List SizeOutcome) : SizeStats :=
  results.foldl updateStats (initStats n)

end Phenofetch.SizeEstimate

namespace Phenofetch

/-- Python list slice `xs[i : j]` for natural bounds. -/
def pySlice {α : Type} (xs : List α) (i j : Nat) : List α :=
  (xs.drop i).take (j - i)

/-- `range(0, len, step)` for a positive step: the slice start offsets. -/
def sliceStarts (step len : Nat) : List Nat :=
  (List.range ((len + step - 1) / step)).map (fun k => k * step)

/-- The batch split `[file_urls[i : i + batch_size] for i in
range(0, len(file_urls), batch_size)]` used by both engine call sites.
(`batch_size = 0` raises `ValueError` in CPython; here it yields no batches.) -/
def makeBatches {α : Type} (batch_size : Nat) (xs : List α) : List (List α) :=
  (sliceStarts batch_size xs.length).map (fun i => pySlice xs i (i + batch_size))

/-- `download_batch` / `process_batch`: one task per URL, gathered in task
order (`asyncio.gather` returns results in the order the awaitables were
passed, regardless of completion order). -/
def download_batch {α β : Type} (op : α → β) (urls : List α) : List β :=
  urls.map op

/-- The batch loop of `async_download_files` / `async_estimate_sizes`: batches
processed strictly in sequence, each batch's outcome list consumed in order.
The semaphore of width `concurrency` only bounds how many operations are in
flight inside a batch; it does not influence which outcomes are produced or
their order, so it is carried as an inert parameter. -/
def async_download_files {α β : Type} (op : α → β) (batch_size concurrency : Nat)
    (xs : List α) : List β :=
  let _ := concurrency
  (makeBatches batch_size xs).foldl (fun acc batch => acc ++ download_batch op batch) []

/-- `determine_optimal_concurrency` (identical in both files). The input is
`some (cpu_count, mem_gb)` when reading host resources succeeds (`mem_gb` is
total RAM in GiB) and `none` when it raises, which the bare `except` turns
into the fixed default 8. -/
def determine_optimal_concurrency (host : Option (Nat × Rat)) : Nat :=
  match host with
  | none => 8
  | some cm =>
    let cpu_count := cm.1
    let mem_gb := cm.2
    let concurrency :=
      if mem_gb < 4 then max 2 (cpu_count / 2)
      else if mem_gb < 8 then max 4 cpu_count
      else max 8 (cpu_count * 2)
    min 32 concurrency

/-- `get_date_range` over day ordinals: the `while current_date <= end_date`
loop, appending one day per iteration and stepping by `timedelta(days=1)`. -/
def get_date_range (start_date end_date : Nat) : List Nat :=
  if start_date ≤ end_date then start_date :: get_date_range (start_date + 1) end_date
  else []
termination_by end_date + 1 - start_date
decreasing_by simp_wf; omega

/-- An image container that omits all three links (no `<a>`, no `<img>`, no
`.meta` anchor) — realised by the HTML fragment
`<div class="col-6 col-sm-4 col-md-3 col-lg-2 px-1"></div>`. -/
def divEmpty : ImgDiv :=
  { aHref := none, imgSrc := none, labelSmall := none, metaHref := none }

/-- An image container carrying all three links. -/
def divFull : ImgDiv :=
  { aHref := some "data/archive/abby/2020/01/01/abby.jpg"
    imgSrc := some "data/archive/abby/2020/01/01/abby_thumb.jpg"
    labelSmall := some "07:00:06 UTC-8"
    metaHref := some "data/archive/abby/2020/01/01/abby.meta" }

/-- A minimal site-info block. -/
def siteInfoStub : SiteInfo :=
  { linkTexts := ["abby"], blockText := "", doyText := none, imgCountText := none }

/-- A page whose single image container omits every link. -/
def soupEmptyDiv : Soup :=
  { siteInfo := some siteInfoStub, imageDivs := [divEmpty] }

/-- A page whose single image container carries every link. -/
def soupFull : Soup :=
  { siteInfo := some siteInfoStub, imageDivs := [divFull] }

/-- All three links of a container are present and nonempty (Python-truthy). -/
def linksPresent (d : ImgDiv) : Prop :=
  (∃ s, d.aHref = some s ∧ s ≠ "") ∧ (∃ s, d.imgSrc = some s ∧ s ≠ "") ∧
  (∃ s, d.metaHref = some s ∧ s ≠ "")

theorem get_date_range_def (s e : Nat) :
    get_date_range s e = if s ≤ e then s :: get_date_range (s + 1) e else [] := by
  rw [get_date_range]

theorem get_date_range_eq_range (n : Nat) :
    ∀ s e : Nat, e + 1 - s = n →
      get_date_range s e = (List.range n).map (fun i => s + i) := by
  induction n with
  | zero =>
    intro s e h
    rw [get_date_range_def, if_neg (by omega)]
    simp
  | succ n ih =>
    intro s e h
    rw [get_date_range_def, if_pos (by omega : s ≤ e), ih (s + 1) e (by omega)]
    rw [List.range_succ_eq_map]
    simp only [List.map_cons, List.map_map, Nat.add_zero]
    have hfe : ((fun i => s + i) ∘ Nat.succ) = fun i => s + 1 + i := by
      funext i
      simp [Function.comp, Nat.succ_eq_add_one]
      omega
    rw [hfe]

/-- Claim C9: for all start ≤ end, `get_date_range` produces exactly
(end − start) + 1 entries, namely the consecutive days start..end in strictly
increasing (chronological) order; start = end yields one entry. -/
theorem date_range_chronological (s e : Nat) (h : s ≤ e) :
    get_date_range s e = (List.range (e + 1 - s)).map (fun i => s + i) ∧
    (get_date_range s e).length = e - s + 1 ∧
    (get_date_range s e).Pairwise (fun a b => a < b) := by
  have heq := get_date_range_eq_range (e + 1 - s) s e rfl
  refine ⟨heq, ?_, ?_⟩
  · rw [heq]
    simp
    omega
  · rw [heq, List.pairwise_map]
    exact (List.pairwise_lt_range _).imp (by intro a b hab; omega)

/-- Witness for C9 at start = 3, end = 5 (and start = end covered by the
length formula). -/
theorem date_range_chronological_witness :
    get_date_range 3 5 = (List.range (5 + 1 - 3)).map (fun i => 3 + i) ∧
    (get_date_range 3 5).length = 5 - 3 + 1 ∧
    (get_date_range 3 5).Pairwise (fun a b => a < b) :=
  date_range_chronological 3 5 (by omega)

/-- Claim C4 (amended): for start > end the generator does not fail — the
`while` loop body never runs and the empty list of dates is returned. -/
theorem date_range_empty_on_inverted (s e : Nat) (h : e < s) :
    get_date_range s e = [] := by
  rw [get_date_range_def, if_neg (by omega)]

/-- Witness for the amended C4. -/
theorem date_range_empty_on_inverted_witness : get_date_range 6 2 = [] :=
  date_range_empty_on_inverted 6 2 (by omega)

/-- Counterexample to C4 as stated: at start = 5, end = 3 the code returns a
value (the empty sequence) along its normal path; no `InvalidRange` failure
exists in `get_date_range`. -/
theorem date_range_counterexample : get_date_range 5 3 = ([] : List Nat) := by
  rw [get_date_range_def, if_neg (by omega)]

/-- Claim C6: the planner's exact tiering with the 32 clamp, the fixed
fallback of 8 when host introspection fails, and the four example hosts. -/
theorem concurrency_planner_spec :
    (∀ (cpu : Nat) (mem : Rat), mem < 4 →
      determine_optimal_concurrency (some (cpu, mem)) = min 32 (max 2 (cpu / 2))) ∧
    (∀ (cpu : Nat) (mem : Rat), 4 ≤ mem → mem < 8 →
      determine_optimal_concurrency (some (cpu, mem)) = min 32 (max 4 cpu)) ∧
    (∀ (cpu : Nat) (mem : Rat), 8 ≤ mem →
      determine_optimal_concurrency (some (cpu, mem)) = min 32 (max 8 (cpu * 2))) ∧
    determine_optimal_concurrency none = 8 ∧
    determine_optimal_concurrency (some (4, 2)) = 2 ∧
    determine_optimal_concurrency (some (4, 6)) = 4 ∧
    determine_optimal_concurrency (some (4, 16)) = 8 ∧
    determine_optimal_concurrency (some (20, 16)) = 32 := by
  refine ⟨?_, ?_, ?_, rfl, ?_, ?_, ?_, ?_⟩
  · intro cpu mem h
    simp [determine_optimal_concurrency, h]
  · intro cpu mem h1 h2
    simp [determine_optimal_concurrency, h2, not_lt.mpr h1]
  · intro cpu mem h
    have h4 : ¬ mem < 4 := not_lt.mpr (le_trans (by norm_num) h)
    simp [determine_optimal_concurrency, h4, not_lt.mpr h]
  · norm_num [determine_optimal_concurrency]
  · norm_num [determine_optimal_concurrency]
  · norm_num [determine_optimal_concurrency]
  · norm_num [determine_optimal_concurrency]

/-- Witness for C6's general low-memory tier at cpu = 4, mem = 2 GiB. -/
theorem concurrency_planner_witness :
    determine_optimal_concurrency (some (4, 2)) = min 32 (max 2 (4 / 2)) :=
  concurrency_planner_spec.1 4 2 (by norm_num)

/-- Claim C8: a metadata-classified ref short-circuits to a synthetic
zero-size success with no request; any other ref costs exactly one HEAD and
reports success with the declared content length (or null when the header is
absent) on a 200 response, and failure on a non-200 response. -/
theorem size_probe_spec (net : String → Nat × Option Nat) (url : String) :
    (classifyKind url = some FileKind.meta →
      SizeEstimate.get_file_size net url =
        ({ success := true, size := some 0, file_type := "meta", error := none }, 0)) ∧
    (classifyKind url ≠ some FileKind.meta →
      (SizeEstimate.get_file_size net url).2 = 1 ∧
      ((net url).1 = 200 →
        (SizeEstimate.get_file_size net url).1.success = true ∧
        (SizeEstimate.get_file_size net url).1.size = (net url).2) ∧
      ((net url).1 ≠ 200 → (SizeEstimate.get_file_size net url).1.success = false)) := by
  constructor
  · intro h
    simp [SizeEstimate.get_file_size, h, fileTypeName]
  · intro h
    by_cases h200 : (net url).1 = 200
    · simp [SizeEstimate.get_file_size, h, h200]
    · simp [SizeEstimate.get_file_size, h, h200]

/-- Witness for C8: a metadata URL probed against a server that would answer
404 still yields the synthetic zero-size success without any request. -/
theorem size_probe_spec_witness :
    SizeEstimate.get_file_size (fun _ => (404, (none : Option Nat)))
        "https://phenocam.nau.edu/data/archive/abby/2020/01/01/abby.meta" =
      ({ success := true, size := some 0, file_type := "meta", error := none }, 0) :=
  (size_probe_spec (fun _ => (404, (none : Option Nat)))
    "https://phenocam.nau.edu/data/archive/abby/2020/01/01/abby.meta").1 (by decide)

/-- Claim C7: when the target path already exists, `download_file` returns the
already-exists success without touching network or disk; hence a fresh
download followed by a re-run of the same ref performs exactly one GET and one
write in total, the second run reporting already-exists. -/
theorem download_idempotent (net : String → Nat) (fs : List String)
    (output_dir url : String) (k : FileKind)
    (hk : classifyKind url = some k)
    (hnew : pyJoin (pyJoin output_dir (subdirName k)) (basename url) ∉ fs)
    (hnet : net url = 200) :
    (∀ fs2 : List String,
        pyJoin (pyJoin output_dir (subdirName k)) (basename url) ∈ fs2 →
        DailyLinks.download_file net fs2 output_dir url =
          { success := true, status := some "already exists", error := none
            fs := fs2, gets := 0, writes := 0 }) ∧
    DailyLinks.download_file net fs output_dir url =
      { success := true, status := some "downloaded", error := none
        fs := pyJoin (pyJoin output_dir (subdirName k)) (basename url) :: fs
        gets := 1, writes := 1 } ∧
    DailyLinks.download_file net
        (DailyLinks.download_file net fs output_dir url).fs output_dir url =
      { success := true, status := some "already exists", error := none
        fs := pyJoin (pyJoin output_dir (subdirName k)) (basename url) :: fs
        gets := 0, writes := 0 } ∧
    (DailyLinks.download_file net fs output_dir url).gets
      + (DailyLinks.download_file net
          (DailyLinks.download_file net fs output_dir url).fs output_dir url).gets = 1 ∧
    (DailyLinks.download_file net fs output_dir url).writes
      + (DailyLinks.download_file net
          (DailyLinks.download_file net fs output_dir url).fs output_dir url).writes = 1 := by
  have hA : ∀ fs2 : List String,
      pyJoin (pyJoin output_dir (subdirName k)) (basename url) ∈ fs2 →
      DailyLinks.download_file net fs2 output_dir url =
        { success := true, status := some "already exists", error := none
          fs := fs2, gets := 0, writes := 0 } := by
    intro fs2 hm
    simp [DailyLinks.download_file, hk, hm]
  have hB : DailyLinks.download_file net fs output_dir url =
      { success := true, status := some "downloaded", error := none
        fs := pyJoin (pyJoin output_dir (subdirName k)) (basename url) :: fs
        gets := 1, writes := 1 } := by
    simp [DailyLinks.download_file, hk, hnew, hnet]
  have hC := hA (pyJoin (pyJoin output_dir (subdirName k)) (basename url) :: fs)
    (List.mem_cons_self _ _)
  refine ⟨hA, hB, ?_, ?_, ?_⟩ <;> rw [hB] <;> rw [hC] <;> rfl

/-- Witness for C7: a fresh archive image downloaded into an empty directory,
then re-run. -/
theorem download_idempotent_witness :
    (∀ fs2 : List String,
        pyJoin (pyJoin "phenocam_data" (subdirName FileKind.full_res))
          (basename "https://phenocam.nau.edu/data/archive/abby/2020/01/01/abby.jpg") ∈ fs2 →
        DailyLinks.download_file (fun _ => 200) fs2 "phenocam_data"
            "https://phenocam.nau.edu/data/archive/abby/2020/01/01/abby.jpg" =
          { success := true, status := some "already exists", error := none
            fs := fs2, gets := 0, writes := 0 }) ∧
    DailyLinks.download_file (fun _ => 200) [] "phenocam_data"
        "https://phenocam.nau.edu/data/archive/abby/2020/01/01/abby.jpg" =
      { success := true, status := some "downloaded", error := none
        fs := pyJoin (pyJoin "phenocam_data" (subdirName FileKind.full_res))
          (basename "https://phenocam.nau.edu/data/archive/abby/2020/01/01/abby.jpg") :: []
        gets := 1, writes := 1 } ∧
    DailyLinks.download_file (fun _ => 200)
        (DailyLinks.download_file (fun _ => 200) [] "phenocam_data"
          "https://phenocam.nau.edu/data/archive/abby/2020/01/01/abby.jpg").fs "phenocam_data"
        "https://phenocam.nau.edu/data/archive/abby/2020/01/01/abby.jpg" =
      { success := true, status := some "already exists", error := none
        fs := pyJoin (pyJoin "phenocam_data" (subdirName FileKind.full_res))
          (basename "https://phenocam.nau.edu/data/archive/abby/2020/01/01/abby.jpg") :: []
        gets := 0, writes := 0 } ∧
    (DailyLinks.download_file (fun _ => 200) [] "phenocam_data"
        "https://phenocam.nau.edu/data/archive/abby/2020/01/01/abby.jpg").gets
      + (DailyLinks.download_file (fun _ => 200)
          (DailyLinks.download_file (fun _ => 200) [] "phenocam_data"
            "https://phenocam.nau.edu/data/archive/abby/2020/01/01/abby.jpg").fs "phenocam_data"
          "https://phenocam.nau.edu/data/archive/abby/2020/01/01/abby.jpg").gets = 1 ∧
    (DailyLinks.download_file (fun _ => 200) [] "phenocam_data"
        "https://phenocam.nau.edu/data/archive/abby/2020/01/01/abby.jpg").writes
      + (DailyLinks.download_file (fun _ => 200)
          (DailyLinks.download_file (fun _ => 200) [] "phenocam_data"
            "https://phenocam.nau.edu/data/archive/abby/2020/01/01/abby.jpg").fs "phenocam_data"
          "https://phenocam.nau.edu/data/archive/abby/2020/01/01/abby.jpg").writes = 1 :=
  download_idempotent (fun _ => 200) [] "phenocam_data"
    "https://phenocam.nau.edu/data/archive/abby/2020/01/01/abby.jpg"
    FileKind.full_res (by decide) (by simp) rfl

theorem updateStats_failed (st : SizeEstimate.SizeStats) (r : SizeEstimate.SizeOutcome) :
    (SizeEstimate.updateStats st r).failed
      = st.failed + (if (r.success && r.size.isSome) = true then 0 else 1) := by
  by_cases h : (r.success && r.size.isSome) = true
  · simp only [SizeEstimate.updateStats, h, if_true]
    split_ifs <;> rfl
  · simp [SizeEstimate.updateStats, h]

theorem updateStats_successful (st : SizeEstimate.SizeStats) (r : SizeEstimate.SizeOutcome) :
    (SizeEstimate.updateStats st r).successful
      = st.successful + (if (r.success && r.size.isSome) = true then 1 else 0) := by
  by_cases h : (r.success && r.size.isSome) = true
  · simp only [SizeEstimate.updateStats, h, if_true]
    split_ifs <;> rfl
  · simp [SizeEstimate.updateStats, h]

theorem foldStats_counts (results : List SizeEstimate.SizeOutcome) :
    ∀ st : SizeEstimate.SizeStats,
      (results.foldl SizeEstimate.updateStats st).failed
        = st.failed + results.countP (fun r => !(r.success && r.size.isSome)) ∧
      (results.foldl SizeEstimate.updateStats st).successful
        = st.successful + results.countP (fun r => r.success && r.size.isSome) := by
  induction results with
  | nil => intro st; simp
  | cons r rs ih =>
    intro st
    have hf := (ih (SizeEstimate.updateStats st r)).1
    have hs := (ih (SizeEstimate.updateStats st r)).2
    constructor
    · rw [List.foldl_cons, hf, updateStats_failed, List.countP_cons]
      by_cases h : (r.success && r.size.isSome) = true
      · simp [h]
      · simp only [h]
        simp
        omega
    · rw [List.foldl_cons, hs, updateStats_successful, List.countP_cons]
      by_cases h : (r.success && r.size.isSome) = true
      · simp [h]
        omega
      · simp [h]

/-- Claim C1 (amended): the aggregator counts an outcome as successful only
when it has success = true AND a non-null size; every other outcome — in
particular a success = true outcome whose content length was absent — is
counted in `failed` (and appended to `errors`), so null-size entries are
excluded from the successful count, not merely from the byte buckets. -/
theorem aggregator_spec (n : Nat) (results : List SizeEstimate.SizeOutcome) :
    (SizeEstimate.foldStats n results).failed
      = results.countP (fun r => !(r.success && r.size.isSome)) ∧
    (SizeEstimate.foldStats n results).successful
      = results.countP (fun r => r.success && r.size.isSome) := by
  have h := foldStats_counts results (SizeEstimate.initStats n)
  simpa [SizeEstimate.foldStats, SizeEstimate.initStats] using h

/-- Counterexample to C1 as stated: a success = true outcome with null size
(a 200 response without a Content-Length header) is counted in `failed`, not
among the successful outcomes. -/
theorem aggregator_counterexample :
    (SizeEstimate.updateStats (SizeEstimate.initStats 1)
      { success := true, size := none, file_type := "full_res", error := none }).failed = 1 ∧
    (SizeEstimate.updateStats (SizeEstimate.initStats 1)
      { success := true, size := none, file_type := "full_res", error := none }).successful = 0 := by
  constructor <;> rfl

theorem sliceStarts_len_zero (step : Nat) : sliceStarts step 0 = [] := by
  unfold sliceStarts
  have h : (0 + step - 1) / step = 0 := by
    rcases Nat.eq_zero_or_pos step with h | h
    · subst h; rfl
    · exact Nat.div_eq_of_lt (by omega)
  rw [h]
  rfl

theorem sliceStarts_pos (step len : Nat) (hs : 1 ≤ step) (hl : 1 ≤ len) :
    sliceStarts step len
      = 0 :: (sliceStarts step (len - step)).map (fun i => i + step) := by
  unfold sliceStarts
  have hcount : (len + step - 1) / step = (len - 1) / step + 1 := by
    have h1 : len + step - 1 = (len - 1) + step := by omega
    rw [h1, Nat.add_div_right _ (by omega : 0 < step)]
  have hcount2 : (len - step + step - 1) / step = (len - 1) / step := by
    by_cases hls : step ≤ len
    · have h2 : len - step + step - 1 = len - 1 := by omega
      rw [h2]
    · have h0 : len - step = 0 := by omega
      rw [h0]
      rw [Nat.div_eq_of_lt (by omega : 0 + step - 1 < step),
        Nat.div_eq_of_lt (by omega : len - 1 < step)]
  rw [hcount, hcount2, List.range_succ_eq_map]
  simp only [List.map_cons, List.map_map, Nat.zero_mul]
  have hfe : ((fun k => k * step) ∘ Nat.succ) = fun j => j * step + step := by
    funext j
    simp [Function.comp, Nat.succ_mul]
  have hfe2 : ((fun i => i + step) ∘ fun k => k * step) = fun j => j * step + step := by
    funext j
    simp [Function.comp]
  rw [hfe, hfe2]

theorem makeBatches_nil {α : Type} (bs : Nat) : makeBatches bs ([] : List α) = [] := by
  simp [makeBatches, sliceStarts_len_zero]

theorem makeBatches_cons {α : Type} (bs : Nat) (hs : 1 ≤ bs) (xs : List α) (hx : xs ≠ []) :
    makeBatches bs xs = xs.take bs :: makeBatches bs (xs.drop bs) := by
  unfold makeBatches
  have hl : 1 ≤ xs.length := by
    cases xs with
    | nil => simp at hx
    | cons a t => simp
  rw [List.length_drop, sliceStarts_pos bs xs.length hs hl, List.map_cons, List.map_map]
  congr 1
  · simp [pySlice]
  · have hfe : ((fun i => pySlice xs i (i + bs)) ∘ (fun i => i + bs))
        = fun i => pySlice (xs.drop bs) i (i + bs) := by
      funext i
      simp only [Function.comp, pySlice, List.drop_drop]
      have e1 : i + bs + bs - (i + bs) = bs := by omega
      have e2 : i + bs - i = bs := by omega
      rw [e1, e2, Nat.add_comm bs i]
    rw [hfe]

theorem makeBatches_join {α : Type} (bs : Nat) (hs : 1 ≤ bs) :
    ∀ (n : Nat) (xs : List α), xs.length ≤ n → (makeBatches bs xs).flatten = xs := by
  intro n
  induction n with
  | zero =>
    intro xs h
    have hx : xs = [] := List.length_eq_zero.mp (by omega)
    subst hx
    simp [makeBatches_nil]
  | succ n ih =>
    intro xs h
    cases xs with
    | nil => simp [makeBatches_nil]
    | cons a t =>
      have hd : (List.drop bs (a :: t)).length ≤ n := by
        simp only [List.length_drop, List.length_cons]
        simp only [List.length_cons] at h
        omega
      rw [makeBatches_cons bs hs _ (by simp), List.flatten_cons, ih _ hd]
      exact List.take_append_drop bs (a :: t)

theorem makeBatches_sizes {α : Type} (bs : Nat) (hs : 1 ≤ bs) :
    ∀ (n : Nat) (xs : List α), xs.length ≤ n →
      ∀ b ∈ makeBatches bs xs, b ≠ [] ∧ b.length ≤ bs := by
  intro n
  induction n with
  | zero =>
    intro xs h
    have hx : xs = [] := List.length_eq_zero.mp (by omega)
    subst hx
    simp [makeBatches_nil]
  | succ n ih =>
    intro xs h b hb
    cases xs with
    | nil => rw [makeBatches_nil] at hb; simp at hb
    | cons a t =>
      rw [makeBatches_cons bs hs _ (by simp)] at hb
      rcases List.mem_cons.mp hb with hb | hb
      · subst hb
        constructor
        · obtain ⟨m, rfl⟩ : ∃ m, bs = m + 1 := ⟨bs - 1, by omega⟩
          simp
        · simp only [List.length_take]
          exact min_le_left _ _
      · have hd : (List.drop bs (a :: t)).length ≤ n := by
          simp only [List.length_drop, List.length_cons]
          simp only [List.length_cons] at h
          omega
        exact ih _ hd b hb

theorem makeBatches_ne_nil_of_ne_nil {α : Type} (bs : Nat) (hs : 1 ≤ bs)
    (xs : List α) (hx : xs ≠ []) : makeBatches bs xs ≠ [] := by
  rw [makeBatches_cons bs hs xs hx]
  simp

theorem makeBatches_full {α : Type} (bs : Nat) (hs : 1 ≤ bs) :
    ∀ (n : Nat) (xs : List α), xs.length ≤ n →
      ∀ i b, (makeBatches bs xs).get? i = some b →
        i + 1 < (makeBatches bs xs).length → b.length = bs := by
  intro n
  induction n with
  | zero =>
    intro xs h i b hget
    have hx : xs = [] := List.length_eq_zero.mp (by omega)
    subst hx
    rw [makeBatches_nil] at hget
    simp at hget
  | succ n ih =>
    intro xs h i b hget hlt
    cases xs with
    | nil => rw [makeBatches_nil] at hget; simp at hget
    | cons a t =>
      rw [makeBatches_cons bs hs _ (by simp)] at hget hlt
      cases i with
      | zero =>
        simp only [List.get?] at hget
        have hb : b = (a :: t).take bs := by
          injection hget with hget
          exact hget.symm
        subst hb
        simp only [List.length_cons] at hlt
        have hrest : makeBatches bs ((a :: t).drop bs) ≠ [] := by
          intro hnil
          rw [hnil] at hlt
          simp at hlt
        have hdrop : (a :: t).drop bs ≠ [] := by
          intro hnil
          rw [hnil, makeBatches_nil] at hrest
          exact hrest rfl
        have hlen : bs < (a :: t).length := by
          by_contra hle
          push_neg at hle
          exact hdrop (List.drop_eq_nil_of_le hle)
        simp only [List.length_take]
        simp only [List.length_cons] at hlen ⊢
        omega
      | succ j =>
        simp only [List.get?] at hget
        simp only [List.length_cons] at hlt
        have hd : (List.drop bs (a :: t)).length ≤ n := by
          simp only [List.length_drop, List.length_cons]
          simp only [List.length_cons] at h
          omega
        exact ih _ hd j b hget (by omega)

theorem foldl_append_eq {α β : Type} (f : α → List β) :
    ∀ (L : List α) (acc : List β),
      L.foldl (fun a b => a ++ f b) acc = acc ++ (L.map f).flatten := by
  intro L
  induction L with
  | nil => intro acc; simp
  | cons x t ih =>
    intro acc
    rw [List.foldl_cons, ih, List.map_cons, List.flatten_cons, List.append_assoc]

theorem async_download_files_eq {α β : Type} (op : α → β) (bs conc : Nat)
    (hb : 1 ≤ bs) (xs : List α) :
    async_download_files op bs conc xs = xs.map op := by
  unfold async_download_files
  rw [foldl_append_eq (download_batch op) (makeBatches bs xs) [], List.nil_append]
  have h1 : (makeBatches bs xs).map (download_batch op)
      = (makeBatches bs xs).map (List.map op) := rfl
  rw [h1, ← List.map_flatten, makeBatches_join bs hb xs.length xs le_rfl]

/-- Claim C5: for batchSize ≥ 1 and concurrency ≥ 1 the engine splits the refs
into contiguous batches of batchSize (all nonempty, all but the last of length
exactly batchSize, concatenating back to the input), processes them in
sequence, and the concatenated outcome list is the input list mapped through
the operation — exactly N outcomes, one per ref, in input order. -/
theorem batch_engine_spec {α β : Type} (op : α → β) (batch_size concurrency : Nat)
    (xs : List α) (hb : 1 ≤ batch_size) (hc : 1 ≤ concurrency) :
    (makeBatches batch_size xs).flatten = xs ∧
    (∀ b ∈ makeBatches batch_size xs, b ≠ [] ∧ b.length ≤ batch_size) ∧
    (∀ i b, (makeBatches batch_size xs).get? i = some b →
      i + 1 < (makeBatches batch_size xs).length → b.length = batch_size) ∧
    async_download_files op batch_size concurrency xs = xs.map op ∧
    (async_download_files op batch_size concurrency xs).length = xs.length := by
  have _ := hc
  refine ⟨makeBatches_join _ hb _ _ le_rfl, makeBatches_sizes _ hb _ _ le_rfl,
    makeBatches_full _ hb _ _ le_rfl, async_download_files_eq op _ _ hb xs, ?_⟩
  rw [async_download_files_eq op _ _ hb xs]
  simp

/-- Witness for C5: the spec's five-ref scenario with batchSize = 2 and
concurrency = 2 (batches [2, 2, 1], five outcomes in order). -/
theorem batch_engine_spec_witness :
    (makeBatches 2 [10, 20, 30, 40, 50]).flatten = [10, 20, 30, 40, 50] ∧
    (∀ b ∈ makeBatches 2 [10, 20, 30, 40, 50], b ≠ [] ∧ b.length ≤ 2) ∧
    (∀ i b, (makeBatches 2 [10, 20, 30, 40, 50]).get? i = some b →
      i + 1 < (makeBatches 2 [10, 20, 30, 40, 50]).length → b.length = 2) ∧
    async_download_files (fun n : Nat => n + 1) 2 2 [10, 20, 30, 40, 50]
      = [10, 20, 30, 40, 50].map (fun n : Nat => n + 1) ∧
    (async_download_files (fun n : Nat => n + 1) 2 2 [10, 20, 30, 40, 50]).length
      = [10, 20, 30, 40, 50].length :=
  batch_engine_spec (fun n : Nat => n + 1) 2 2 [10, 20, 30, 40, 50]
    (by omega) (by omega)

/-- Claim C2 (code-bug evaluation): on a container that omits all of its
links, the `daily_links.py` parser produces the non-null URL strings
`https://phenocam.nau.edu/None` for every field (Python `None` interpolated
into the f-string), while the `size_estimate.py` copy of the same function
produces null fields as the claim states. -/
theorem parser_none_link_eval :
    (DailyLinks.convert_phenocam_daily_to_json soupEmptyDiv).map
        (fun pd => pd.images.map (fun e => (e.image_url, e.thumbnail_url, e.metadata_url)))
      = some [(some "https://phenocam.nau.edu/None",
               some "https://phenocam.nau.edu/None",
               some "https://phenocam.nau.edu/None")] ∧
    (SizeEstimate.convert_phenocam_daily_to_json soupEmptyDiv).map
        (fun pd => pd.images.map (fun e => (e.image_url, e.thumbnail_url, e.metadata_url)))
      = some [(none, none, none)] := by
  constructor
  · rfl
  · rfl

/-- Counterexample to C3 as stated: the `daily_links.py` parser emits the URL
`https://phenocam.nau.edu/None` (for a container with no links), which is
Python-truthy and therefore enqueued; it matches no classification branch, so
`subdir` is never assigned and `download_file` fails with the caught
`NameError` instead of classifying it. -/
theorem classify_counterexample :
    (DailyLinks.convert_phenocam_daily_to_json soupEmptyDiv).map
        (fun pd => pd.images.map (fun e => e.image_url))
      = some [some "https://phenocam.nau.edu/None"] ∧
    pyTruthyS "https://phenocam.nau.edu/None" = true ∧
    classifyKind "https://phenocam.nau.edu/None" = none ∧
    (DailyLinks.download_file (fun _ => 200) [] "phenocam_data"
      "https://phenocam.nau.edu/None").success = false ∧
    (DailyLinks.download_file (fun _ => 200) [] "phenocam_data"
      "https://phenocam.nau.edu/None").error = some "NameError" := by
  refine ⟨rfl, rfl, by decide, ?_, ?_⟩
  · rfl
  · rfl

/-- Claim C3 (amended): classification is total — and picks exactly one
branch — for every URL of one of the three shapes the page template actually
yields (a `/thumbnails/` path, an `/archive/` path ending `.jpg`, an
`/archive/` path ending `.meta`); `download_file` assigns the target
subdirectory precisely in this `some` branch, before computing the file path.
URLs outside these shapes (which the daily_links parser can emit for a
container with a missing link) fall through to `none`. -/
theorem classify_total_on_expected (url : String)
    (h : strContains url "/thumbnails/" = true
      ∨ (strContains url "/archive/" = true ∧ strEndsWith url ".jpg" = true)
      ∨ (strContains url "/archive/" = true ∧ strEndsWith url ".meta" = true)) :
    ∃ k, classifyKind url = some k ∧ ∀ k2, classifyKind url = some k2 → k2 = k := by
  by_cases h1 : strContains url "/thumbnails/" = true
  · refine ⟨FileKind.thumbnail, ?_, ?_⟩
    · simp [classifyKind, h1]
    · intro k2 hk2
      simp [classifyKind, h1] at hk2
      exact hk2.symm
  · by_cases h2 : (strContains url "/archive/" && strEndsWith url ".jpg") = true
    · refine ⟨FileKind.full_res, ?_, ?_⟩
      · simp [classifyKind, h1, h2]
      · intro k2 hk2
        simp [classifyKind, h1, h2] at hk2
        exact hk2.symm
    · by_cases h3 : (strContains url "/archive/" && strEndsWith url ".meta") = true
      · refine ⟨FileKind.meta, ?_, ?_⟩
        · simp [classifyKind, h1, h2, h3]
        · intro k2 hk2
          simp [classifyKind, h1, h2, h3] at hk2
          exact hk2.symm
      · exfalso
        rcases h with h | ⟨ha, hb⟩ | ⟨ha, hb⟩
        · exact h1 h
        · exact h2 (by rw [ha, hb]; rfl)
        · exact h3 (by rw [ha, hb]; rfl)

/-- Witness for the amended C3 on an archive image URL. -/
theorem classify_total_on_expected_witness :
    ∃ k, classifyKind "https://phenocam.nau.edu/data/archive/abby/2020/01/01/abby.jpg"
        = some k ∧
      ∀ k2, classifyKind "https://phenocam.nau.edu/data/archive/abby/2020/01/01/abby.jpg"
        = some k2 → k2 = k :=
  classify_total_on_expected "https://phenocam.nau.edu/data/archive/abby/2020/01/01/abby.jpg"
    (Or.inr (Or.inl ⟨by decide, by decide⟩))

theorem mkImageInfo_agree (d : ImgDiv) (h : linksPresent d) :
    DailyLinks.mkImageInfo d = SizeEstimate.mkImageInfo d := by
  obtain ⟨⟨s1, h1, n1⟩, ⟨s2, h2, n2⟩, ⟨s3, h3, n3⟩⟩ := h
  have e1 : (s1 == "") = false := beq_eq_false_iff_ne.mpr n1
  have e2 : (s2 == "") = false := beq_eq_false_iff_ne.mpr n2
  have e3 : (s3 == "") = false := beq_eq_false_iff_ne.mpr n3
  simp [DailyLinks.mkImageInfo, SizeEstimate.mkImageInfo, h1, h2, h3,
    pyFStr, pyTruthyS, e1, e2, e3]

/-- Claim C10 (amended): the two parser copies agree on the site, date and
count fields and on every time/timezone field, and compute identical results
on every page all of whose image containers carry all three links (nonempty);
they differ exactly on absent or empty links, where `daily_links.py` yields
the non-null string `https://phenocam.nau.edu/None` (or the bare base URL)
and `size_estimate.py` yields null. -/
theorem parsers_agree (soup : Soup)
    (h : ∀ d ∈ soup.imageDivs, linksPresent d) :
    DailyLinks.convert_phenocam_daily_to_json soup
      = SizeEstimate.convert_phenocam_daily_to_json soup := by
  unfold DailyLinks.convert_phenocam_daily_to_json SizeEstimate.convert_phenocam_daily_to_json
  cases hs : soup.siteInfo with
  | none => rfl
  | some si =>
    have himg : soup.imageDivs.map DailyLinks.mkImageInfo
        = soup.imageDivs.map SizeEstimate.mkImageInfo := by
      apply List.map_congr_left
      intro d hd
      exact mkImageInfo_agree d (h d hd)
    simp only [himg]

/-- Witness for the amended C10 on a page with one fully-linked container. -/
theorem parsers_agree_witness :
    DailyLinks.convert_phenocam_daily_to_json soupFull
      = SizeEstimate.convert_phenocam_daily_to_json soupFull :=
  parsers_agree soupFull (by
    intro d hd
    simp only [soupFull, List.mem_singleton] at hd
    subst hd
    exact ⟨⟨_, rfl, by decide⟩, ⟨_, rfl, by decide⟩, ⟨_, rfl, by decide⟩⟩)

/-- Counterexample to C10 as stated: on the page whose single container omits
its links, the two copies return different results. -/
theorem parsers_differ_counterexample :
    DailyLinks.convert_phenocam_daily_to_json soupEmptyDiv
      ≠ SizeEstimate.convert_phenocam_daily_to_json soupEmptyDiv := by
  intro heq
  have h1 : (DailyLinks.convert_phenocam_daily_to_json soupEmptyDiv).map
      (fun pd => pd.images.map (fun e => e.image_url))
      = some [some "https://phenocam.nau.edu/None"] := rfl
  have h2 : (SizeEstimate.convert_phenocam_daily_to_json soupEmptyDiv).map
      (fun pd => pd.images.map (fun e => e.image_url))
      = some [none] := rfl
  rw [heq] at h1
  rw [h1] at h2
  simp at h2

end Phenofetch
